import Mathlib

/-!
Shallow embedding of `SBstoat/_logger.py` (the timing/statistics engine of
SBstoat): `BlockSpecification` (spans), `Statistic` (per-block accumulators)
and `Logger` (the registry with live-span table, statistic table, merge and
the cached performance report).

Modelling choices:
* Python `float` durations and totals are modelled as exact rationals (`ℚ`).
* Python `dict` (insertion ordered, unique keys) is modelled as an
  association list; assignment replaces in place when the key exists and
  appends otherwise, matching CPython semantics.
* `time.time()` readings are passed in explicitly as `ℚ` arguments.
* The class variable `BlockSpecification.guid` (a process-wide counter) is
  threaded through explicitly as a `Nat` argument and result.
* Fallible code (`KeyError`, `IndexError`, unbound local) returns `Except`.
* Text emission (`Logger._write`) is modelled by returning the list of
  message payloads written; the timestamp formatting is external I/O and is
  not part of any claim.
-/

/-- Python-dict lookup on an association list: first binding of the key. -/
def dget [DecidableEq α] : List (α × β) → α → Option β
  | [], _ => none
  | (k, v) :: rest, a => if k = a then some v else dget rest a

/-- Python-dict assignment `d[a] = b`: replace in place if the key exists,
otherwise append (CPython preserves insertion order). -/
def dset [DecidableEq α] : List (α × β) → α → β → List (α × β)
  | [], a, b => [(a, b)]
  | (k, v) :: rest, a, b =>
      if k = a then (a, b) :: rest else (k, v) :: dset rest a b

/-- Python `del d[a]`: remove the binding of the key. -/
def ddel [DecidableEq α] : List (α × β) → α → List (α × β)
  | [], _ => []
  | (k, v) :: rest, a => if k = a then rest else (k, v) :: ddel rest a

/-- Python `d.keys()`. -/
def dkeys (d : List (α × β)) : List α := d.map Prod.fst

@[simp] theorem dget_nil [DecidableEq α] (a : α) :
    dget ([] : List (α × β)) a = none := rfl

@[simp] theorem dget_cons [DecidableEq α] (k a : α) (v : β) (rest : List (α × β)) :
    dget ((k, v) :: rest) a = if k = a then some v else dget rest a := rfl

theorem dget_dset_self [DecidableEq α] (d : List (α × β)) (a : α) (b : β) :
    dget (dset d a b) a = some b := by
  induction d with
  | nil => simp [dset]
  | cons kv rest ih =>
      obtain ⟨k, v⟩ := kv
      by_cases h : k = a <;> simp [dset, h, ih]

theorem dget_dset_ne [DecidableEq α] (d : List (α × β)) (a a' : α) (b : β)
    (h : a ≠ a') : dget (dset d a b) a' = dget d a' := by
  induction d with
  | nil => simp [dset, h]
  | cons kv rest ih =>
      obtain ⟨k, v⟩ := kv
      by_cases hk : k = a
      · subst hk
        simp [dset, h]
      · simp [dset, hk, ih]

/-- Levels from the module header. -/
def LEVEL_ACTIVITY : Nat := 1

def LEVEL_RESULT : Nat := 2

def LEVEL_STATUS : Nat := 3

def LEVEL_EXCEPTION : Nat := 4

def LEVEL_ERROR : Nat := 5

/-- `BlockSpecification.__init__` -- describes an entry for timing a block of
code.  `guid` is the value of the class counter at creation, `startTime` the
`time.time()` reading, `duration` unset until `setDuration`. -/
structure BlockSpecification where
  guid : Nat
  startTime : ℚ
  block : String
  duration : Option ℚ
deriving Repr, DecidableEq

/-- `BlockSpecification(block)` given the current class counter and clock. -/
def BlockSpecification.make (block : String) (now : ℚ) (counter : Nat) :
    BlockSpecification × Nat :=
  (⟨counter, now, block, none⟩, counter + 1)

/-- `BlockSpecification.setDuration`. -/
def BlockSpecification.setDuration (s : BlockSpecification) (now : ℚ) :
    BlockSpecification :=
  { s with duration := some (now - s.startTime) }

/-- `Statistic.__init__` -- statistics for a block. -/
structure Statistic where
  block : Option String
  count : Nat
  total : ℚ
  mean : Option ℚ
deriving Repr, DecidableEq

/-- `Statistic(block=block)`. -/
def Statistic.init (block : Option String) : Statistic :=
  { block := block, count := 0, total := 0, mean := none }

/-- Modelled from the spec: `Statistic.copy` delegates to
`_helpers.copyObject`, whose source is not in the repository slice; the spec
describes `copy()` as a deep, independent clone, which for an immutable Lean
value is the value itself. -/
def Statistic.copy (s : Statistic) : Statistic := s

/-- `Statistic.update`. -/
def Statistic.update (s : Statistic) (value : ℚ) : Statistic :=
  { s with count := s.count + 1, total := s.total + value }

/-- `Statistic.merge`: copy `self`, then overwrite the attributes in
`STATISTIC_ATTR_MERGE = ["count", "total"]` with the pairwise sums.  All
other attributes (in particular `mean` and `block`) keep the values copied
from `self`. -/
def Statistic.merge (s other : Statistic) : Statistic :=
  { s.copy with count := s.count + other.count, total := s.total + other.total }

/-- `Statistic.summarize`. -/
def Statistic.summarize (s : Statistic) : Statistic :=
  if s.count = 0 then { s with mean := some 0 }
  else { s with mean := some (s.total / (s.count : ℚ)) }

/-- Structured errors raised by the merge code: `KeyError` from
`other.statisticDct[block]`, `IndexError` from `others[0]` on an empty
sequence, and Python's unbound-local error from `return newLogger` when the
`for` body never executed. -/
inductive LoggerError where
  | keyError (key : String)
  | indexError
  | unboundLocal (var : String)
deriving Repr, DecidableEq

/-- A row of the performance report: (block name, COUNT, MEAN, TOTAL). -/
abbrev ReportRow : Type := String × Nat × Option ℚ × ℚ

/-- `Logger.__init__`.  `toFile` (output destination) and `startTime`
(wall-clock construction time) only affect the textual formatting of
emitted lines and are omitted; message payloads are returned explicitly
by the emitting operations instead. -/
structure Logger where
  isReport : Bool := true
  logLevel : Nat := LEVEL_STATUS
  unpairedBlocks : Nat := 0
  blockDct : List (Nat × BlockSpecification) := []
  _performanceDF : Option (List ReportRow) := none
  statisticDct : List (String × Statistic) := []
deriving Repr, DecidableEq

/-- `Logger()` with default arguments. -/
def Logger.init : Logger := {}

/-- Modelled from the spec: `Logger.copy` delegates to
`_helpers.copyObject`, whose source is not in the repository slice; the
spec describes `copy()` as a deep, independent clone, which for an
immutable Lean value is the value itself. -/
def Logger.copy (lg : Logger) : Logger := lg

/-- `Logger.exception`: writes the message when reporting is on and the
log level admits exception-level messages; returns the payloads written. -/
def Logger.exception (lg : Logger) (msg : String) : List String :=
  if lg.isReport = true ∧ LEVEL_EXCEPTION ≤ lg.logLevel then [msg] else []

/-- `Logger.startBlock`: create a `BlockSpecification` (incrementing the
class counter), register it in `blockDct` under its guid, return the guid. -/
def Logger.startBlock (lg : Logger) (block : String) (now : ℚ) (counter : Nat) :
    Nat × Logger × Nat :=
  let p := BlockSpecification.make block now counter
  (p.1.guid, { lg with blockDct := dset lg.blockDct p.1.guid p.1 }, p.2)

/-- `Logger.endBlock`: on a missing guid, emit an exception-level
diagnostic and change nothing; otherwise set the span's duration, create
the block's `Statistic` if absent, `update` it with the duration, and
delete the span from `blockDct`. -/
def Logger.endBlock (lg : Logger) (guid : Nat) (now : ℚ) : Logger × List String :=
  match dget lg.blockDct guid with
  | none => (lg, lg.exception ("missing guid: " ++ toString guid))
  | some spec0 =>
      let spec := spec0.setDuration now
      let dct0 :=
        match dget lg.statisticDct spec.block with
        | none => dset lg.statisticDct spec.block (Statistic.init (some spec.block))
        | some _ => lg.statisticDct
      let dct1 :=
        match dget dct0 spec.block with
        | none => dct0   -- unreachable: the key was ensured present above
        | some st => dset dct0 spec.block (st.update (now - spec.startTime))
      ({ lg with statisticDct := dct1, blockDct := ddel lg.blockDct spec.guid }, [])

/-- The `for block, statistic in self.statisticDct.items()` loop of
`Logger._merge`: `other.statisticDct[block]` raises `KeyError` when the
block is missing, else the merged statistic is stored in the accumulator. -/
def Logger.mergeStatistics (other : Logger) :
    List (String × Statistic) → Logger → Except LoggerError Logger
  | [], newLogger => .ok newLogger
  | (block, statistic) :: rest, newLogger =>
      match dget other.statisticDct block with
      | none => .error (.keyError block)
      | some otherStatistic =>
          Logger.mergeStatistics other rest
            { newLogger with
                statisticDct :=
                  dset newLogger.statisticDct block (statistic.merge otherStatistic) }

/-- `Logger._merge`: fold the loop above over `self.statisticDct`, starting
from a copy of `self`. -/
def Logger._merge (self other : Logger) : Except LoggerError Logger :=
  Logger.mergeStatistics other self.statisticDct self.copy

/-- `Logger.merge` (static): `others[0]` raises `IndexError` on an empty
sequence; the `for` loop rebinds `newLogger` on every iteration, and the
final `return newLogger` raises Python's unbound-local error when the loop
body never executed (`others` a singleton).  The local `newLogger` is
modelled as an `Option Logger`, `none` while unbound. -/
def Logger.merge (others : List Logger) : Except LoggerError Logger :=
  match others with
  | [] => .error .indexError
  | curLogger0 :: rest =>
      let step := fun (state : Logger × Option Logger) (other : Logger) =>
        match state.1._merge other with
        | .error e => Except.error e
        | .ok newLogger => Except.ok (newLogger, some newLogger)
      match rest.foldlM step (curLogger0, none) with
      | .error e => .error e
      | .ok (_, none) => .error (.unboundLocal "newLogger")
      | .ok (_, some newLogger) => .ok newLogger

/-- The `performanceDF` property: when the cache is unset, set
`unpairedBlocks` to the number of live spans, `summarize()` every statistic
in place, build one row per block name with columns COUNT, MEAN, TOTAL, and
sort the rows ascending by block name (`sort_index`); cache the result.
When the cache is set, return it unchanged. -/
def Logger.performanceDF (lg : Logger) : List ReportRow × Logger :=
  match lg._performanceDF with
  | some df => (df, lg)
  | none =>
      let unpaired := lg.blockDct.length
      let summarized := lg.statisticDct.map (fun p => (p.1, p.2.summarize))
      let rows : List ReportRow :=
        summarized.map (fun p => (p.1, p.2.count, p.2.mean, p.2.total))
      let df := List.insertionSort (fun r r' : ReportRow => r.1 ≤ r'.1) rows
      (df, { lg with unpairedBlocks := unpaired, statisticDct := summarized,
                     _performanceDF := some df })

/-- A block-timing operation on a registry: the two lifecycle calls with
explicit clock readings. -/
inductive LogOp where
  | startB (block : String) (now : ℚ)
  | endB (guid : Nat) (now : ℚ)
deriving Repr, DecidableEq

/-- Apply one operation to a logger together with the process-wide guid
counter (`BlockSpecification.guid`). -/
def applyOp (s : Logger × Nat) : LogOp → Logger × Nat
  | .startB b t =>
      let r := s.1.startBlock b t s.2
      (r.2.1, r.2.2)
  | .endB guid t => ((s.1.endBlock guid t).1, s.2)

/-- Apply a sequence of operations. -/
def applyOps (s : Logger × Nat) (ops : List LogOp) : Logger × Nat :=
  ops.foldl applyOp s

/-- Reference accounting for the span lifecycle, used to state what the
statistic table must contain after a trace: the guid counter, the list of
open spans (guid, block name, start time) and the list of completed closes
(block name, duration), in order. -/
structure SpanAccounting where
  counter : Nat
  openSpans : List (Nat × String × ℚ)
  closed : List (String × ℚ)
deriving Repr, DecidableEq

/-- One step of the reference accounting: a start appends a fresh open
span; an end with a live guid moves it to the closed list with its
duration, an end with an unknown guid changes nothing. -/
def SpanAccounting.step (a : SpanAccounting) : LogOp → SpanAccounting
  | .startB b t => ⟨a.counter + 1, a.openSpans ++ [(a.counter, b, t)], a.closed⟩
  | .endB guid t =>
      match dget a.openSpans guid with
      | none => a
      | some bt => ⟨a.counter, ddel a.openSpans guid, a.closed ++ [(bt.1, t - bt.2)]⟩

/-- Run the reference accounting over a trace. -/
def SpanAccounting.run (a : SpanAccounting) (ops : List LogOp) : SpanAccounting :=
  ops.foldl SpanAccounting.step a

/-- The empty accounting state with the counter at `g0`. -/
def SpanAccounting.initFrom (g0 : Nat) : SpanAccounting := ⟨g0, [], []⟩

/-- Number of completed closes for block name `b`. -/
def closedCount (closed : List (String × ℚ)) (b : String) : Nat :=
  (closed.filter (fun p => decide (p.1 = b))).length

/-- Sum of the durations of the completed closes for block name `b`. -/
def closedTotal (closed : List (String × ℚ)) (b : String) : ℚ :=
  ((closed.filter (fun p => decide (p.1 = b))).map Prod.snd).sum

/-- A trace is matched when every `endB` names a currently open guid:
an identifier previously returned by `startBlock` and not yet ended. -/
def matchedTrace (a : SpanAccounting) : List LogOp → Bool
  | [] => true
  | op :: rest =>
      (match op with
       | .startB _ _ => true
       | .endB guid _ => (dget a.openSpans guid).isSome) && matchedTrace (a.step op) rest

/-- Concrete statistics for counterexamples and witnesses. -/
def stX : Statistic := { block := some "x", count := 3, total := 1, mean := none }

def stY : Statistic := { block := some "y", count := 2, total := 2, mean := none }

/-- Registry with statistic table keyed by `{"x", "y"}`. -/
def regXY : Logger := { Logger.init with statisticDct := [("x", stX), ("y", stY)] }

/-- Registry with statistic table keyed by `{"x"}` only. -/
def regX : Logger := { Logger.init with statisticDct := [("x", stY)] }

/-- C1 counterexample: merging a summarized receiver yields a merged
Statistic whose `mean` is NOT unset -- it is copied from the receiver. -/
theorem statisticMergeMeanNotUnset :
    ¬ ((((Statistic.init (some "x")).update 1).summarize).merge
        (Statistic.init (some "y"))).mean = none := by
  decide

/-- C1 (amended): `s.merge o` returns a new Statistic whose count is
`s.count + o.count` and whose total is `s.total + o.total`; its mean is
copied from the receiver `s` (so it is unset only when `s`'s mean is
unset), and the caller must call `summarize()` on the result to obtain a
mean for the merged data. -/
theorem statisticMergeSpec (s o : Statistic) :
    (s.merge o).count = s.count + o.count ∧
    (s.merge o).total = s.total + o.total ∧
    (s.merge o).mean = s.mean :=
  ⟨rfl, rfl, rfl⟩

/-- C5: `Statistic.merge` is commutative and associative on the
`(count, total)` pair. -/
theorem statisticMergeCommAssoc (a b c : Statistic) :
    ((a.merge b).count = (b.merge a).count ∧
     (a.merge b).total = (b.merge a).total) ∧
    (((a.merge b).merge c).count = (a.merge (b.merge c)).count ∧
     ((a.merge b).merge c).total = (a.merge (b.merge c)).total) := by
  refine ⟨⟨?_, ?_⟩, ?_, ?_⟩ <;>
    simp [Statistic.merge, Statistic.copy] <;> ring

/-- C6: `summarize()` sets the mean to `total / count` when `count > 0`
and to `0.0` when `count = 0`; it leaves count and total unchanged and is
idempotent. -/
theorem statisticSummarizeSpec (s : Statistic) :
    (0 < s.count → (s.summarize).mean = some (s.total / (s.count : ℚ))) ∧
    (s.count = 0 → (s.summarize).mean = some 0) ∧
    (s.summarize).count = s.count ∧
    (s.summarize).total = s.total ∧
    (s.summarize).summarize = s.summarize := by
  by_cases h : s.count = 0 <;>
    simp [Statistic.summarize, h, Nat.pos_iff_ne_zero]

/-- Witness for C6 at a concrete statistic with one update of duration 3. -/
theorem statisticSummarizeSpec_witness :
    0 < ((Statistic.init none).update 3).count ∧
    (((Statistic.init none).update 3).summarize).mean =
      some (((Statistic.init none).update 3).total /
            (((Statistic.init none).update 3).count : ℚ)) :=
  ⟨by decide, (statisticSummarizeSpec ((Statistic.init none).update 3)).1 (by decide)⟩

/-- C4: `endBlock` on a guid absent from the live-span table leaves the
logger (its statistic table, its keyset, and its live-span table) entirely
unchanged and emits only the exception-level diagnostic (which never
raises); nothing else happens. -/
theorem endBlockMissingGuid (lg : Logger) (guid : Nat) (now : ℚ)
    (h : dget lg.blockDct guid = none) :
    (lg.endBlock guid now).1.statisticDct = lg.statisticDct ∧
    dkeys (lg.endBlock guid now).1.statisticDct = dkeys lg.statisticDct ∧
    (lg.endBlock guid now).1.blockDct = lg.blockDct ∧
    (lg.endBlock guid now).1 = lg ∧
    (lg.endBlock guid now).2 = lg.exception ("missing guid: " ++ toString guid) := by
  simp [Logger.endBlock, h]

/-- Witness for C4: guid 5 was never started on a fresh logger. -/
theorem endBlockMissingGuid_witness :
    dget Logger.init.blockDct 5 = none ∧ (Logger.init.endBlock 5 10).1 = Logger.init :=
  ⟨rfl, (endBlockMissingGuid Logger.init 5 10 rfl).2.2.2.1⟩

/-- C10: `Logger.merge` on a singleton sequence never returns the lone
registry (or a copy): the loop body does not execute, so `return newLogger`
reads an unbound local and the call raises instead of producing a logger. -/
theorem mergeSingletonUnboundLocal (lg : Logger) :
    Logger.merge [lg] = .error (.unboundLocal "newLogger") := rfl

theorem merge_pair (a b : Logger) : Logger.merge [a, b] = a._merge b := by
  cases h : a._merge b <;> simp [Logger.merge, List.foldlM, h]

theorem mergeStatistics_missing (other : Logger) (l : List (String × Statistic))
    (acc : Logger) (h : ∃ k ∈ l.map Prod.fst, dget other.statisticDct k = none) :
    ∃ k, Logger.mergeStatistics other l acc = .error (.keyError k) ∧
         k ∈ l.map Prod.fst ∧ dget other.statisticDct k = none := by
  induction l generalizing acc with
  | nil => simp at h
  | cons p rest ih =>
      obtain ⟨blk, st⟩ := p
      cases ho : dget other.statisticDct blk with
      | none => exact ⟨blk, by simp [Logger.mergeStatistics, ho], by simp, ho⟩
      | some ost =>
          obtain ⟨k, hk, hknone⟩ := h
          simp only [List.map_cons, List.mem_cons] at hk
          have hkr : k ∈ rest.map Prod.fst := by
            rcases hk with rfl | hk
            · rw [ho] at hknone
              exact absurd hknone (by simp)
            · exact hk
          obtain ⟨k', hk1, hk2, hk3⟩ := ih _ ⟨k, hkr, hknone⟩
          exact ⟨k', by simpa [Logger.mergeStatistics, ho] using hk1, by simp [hk2], hk3⟩

/-- C2 counterexample: registries whose statistic tables do NOT share an
identical keyset, yet `merge` succeeds and silently drops data.  `regX`
(keys `{"x"}`) merged with `regXY` (keys `{"x","y"}`) returns a registry
with no `"y"` statistic and signals no error. -/
theorem mergeKeysetMismatch_cex :
    dkeys regXY.statisticDct ≠ dkeys regX.statisticDct ∧
    (Logger.merge [regX, regXY]).isOk = true ∧
    (Logger.merge [regX, regXY]).toOption.bind (fun r => dget r.statisticDct "y")
      = none := by
  decide

/-- C2 (amended): `Logger.merge` fails fast with a structured error naming
a missing key exactly in the direction the loop checks: when a block name
of the first registry's statistic table is absent from the other's, the
merge returns a `KeyError` carrying such a missing block name and no
logger (so no partial result escapes).  In particular merging `[A, B]`
where A has block names `{"x","y"}` and B has only `{"x"}` signals the
missing-key error.  (When the extra keys are on the later registry's side,
the merge instead succeeds and silently drops them -- see the
counterexample.) -/
theorem mergeMissingKeyError (a b : Logger)
    (h : ∃ k ∈ dkeys a.statisticDct, dget b.statisticDct k = none) :
    ∃ k, Logger.merge [a, b] = .error (.keyError k) ∧
         k ∈ dkeys a.statisticDct ∧ dget b.statisticDct k = none := by
  obtain ⟨k, h1, h2, h3⟩ :=
    mergeStatistics_missing b a.statisticDct a.copy (by simpa [dkeys] using h)
  exact ⟨k, by rw [merge_pair]; exact h1, by simpa [dkeys] using h2, h3⟩

/-- Witness for C2 (amended): the spec's scenario, A with `{"x","y"}` and
B with `{"x"}`. -/
theorem mergeMissingKeyError_witness :
    (∃ k ∈ dkeys regXY.statisticDct, dget regX.statisticDct k = none) ∧
    (∃ k, Logger.merge [regXY, regX] = .error (.keyError k) ∧
          k ∈ dkeys regXY.statisticDct ∧ dget regX.statisticDct k = none) :=
  ⟨by decide, mergeMissingKeyError regXY regX (by decide)⟩

instance : IsTotal ReportRow (fun r r' => r.1 ≤ r'.1) :=
  ⟨fun a b => le_total a.1 b.1⟩

instance : IsTrans ReportRow (fun r r' => r.1 ≤ r'.1) :=
  ⟨fun _ _ _ h1 h2 => le_trans h1 h2⟩

/-- C7: on its first access (cache unset), the performance report
summarizes every statistic in the table in place, yields exactly one row
per block name carrying that block's count, mean and total, and the rows
are sorted ascending by block name. -/
theorem performanceDFFirstAccess (lg : Logger) (h : lg._performanceDF = none) :
    List.Sorted (fun r r' : ReportRow => r.1 ≤ r'.1) (lg.performanceDF).1 ∧
    ((lg.performanceDF).1).Perm
      (lg.statisticDct.map (fun p =>
        ((p.1, (p.2.summarize).count, (p.2.summarize).mean,
          (p.2.summarize).total) : ReportRow))) ∧
    ((lg.performanceDF).2).statisticDct
      = lg.statisticDct.map (fun p => (p.1, p.2.summarize)) := by
  refine ⟨?_, ?_, by simp [Logger.performanceDF, h]⟩
  · simp only [Logger.performanceDF, h]
    exact List.sorted_insertionSort _ _
  · simp only [Logger.performanceDF, h]
    have hp := List.perm_insertionSort (fun r r' : ReportRow => r.1 ≤ r'.1)
      ((lg.statisticDct.map (fun p => (p.1, p.2.summarize))).map
        (fun p => ((p.1, p.2.count, p.2.mean, p.2.total) : ReportRow)))
    simpa [List.map_map, Function.comp] using hp

/-- Registry whose statistic table is deliberately out of name order. -/
def perfLogger : Logger :=
  { Logger.init with statisticDct := [("y", stY), ("x", stX)] }

/-- Witness for C7 on a two-entry table stored out of order. -/
theorem performanceDFFirstAccess_witness :
    perfLogger._performanceDF = none ∧
    List.Sorted (fun r r' : ReportRow => r.1 ≤ r'.1) (perfLogger.performanceDF).1 :=
  ⟨rfl, (performanceDFFirstAccess perfLogger rfl).1⟩

theorem performanceDF_cache_set (lg : Logger) :
    ((lg.performanceDF).2)._performanceDF = some ((lg.performanceDF).1) := by
  cases h : lg._performanceDF <;> simp [Logger.performanceDF, h]

theorem applyOp_perf (s : Logger × Nat) (op : LogOp) :
    ((applyOp s op).1)._performanceDF = s.1._performanceDF := by
  cases op with
  | startB b t => rfl
  | endB guid t =>
      cases h : dget s.1.blockDct guid <;> simp [applyOp, Logger.endBlock, h]

theorem applyOps_perf (ops : List LogOp) (s : Logger × Nat) :
    ((applyOps s ops).1)._performanceDF = s.1._performanceDF := by
  induction ops generalizing s with
  | nil => rfl
  | cons op rest ih => exact (ih (applyOp s op)).trans (applyOp_perf s op)

theorem performanceDF_of_cached (lg : Logger) (df : List ReportRow)
    (h : lg._performanceDF = some df) : (lg.performanceDF).1 = df := by
  simp [Logger.performanceDF, h]

/-- C8: the performance report is computed once and cached, never
invalidated: after the first access, any sequence of `startBlock` and
`endBlock` calls leaves the cache in place, and a later access returns the
identical snapshot. -/
theorem performanceDFCachedForever (lg : Logger) (ops : List LogOp) (g : Nat) :
    (((applyOps ((lg.performanceDF).2, g) ops).1).performanceDF).1
      = (lg.performanceDF).1 := by
  apply performanceDF_of_cached
  rw [applyOps_perf]
  exact performanceDF_cache_set lg

/-- Run a sequence of `startBlock` calls (each on an arbitrary registry,
with an arbitrary clock reading), threading the process-wide counter;
collect the returned identifiers in order. -/
def runStarts (g0 : Nat) : List (Logger × String × ℚ) → List Nat
  | [] => []
  | c :: rest =>
      let r := c.1.startBlock c.2.1 c.2.2 g0
      r.1 :: runStarts r.2.2 rest

/-- C9: every `startBlock` call, on any registry, returns a value (never
fails), and the identifiers returned by successive calls are exactly the
consecutive counter values -- each strictly greater than every identifier
returned earlier, hence unique among all spans ever created. -/
theorem startBlockGuidsFresh (g0 : Nat) (calls : List (Logger × String × ℚ)) :
    runStarts g0 calls = List.range' g0 calls.length ∧
    (runStarts g0 calls).Pairwise (· < ·) := by
  have heq : ∀ (g1 : Nat) (cs : List (Logger × String × ℚ)),
      runStarts g1 cs = List.range' g1 cs.length := by
    intro g1 cs
    induction cs generalizing g1 with
    | nil => rfl
    | cons c rest ih => simp [runStarts, List.range'_succ, ih, Logger.startBlock,
        BlockSpecification.make]
  refine ⟨heq g0 calls, ?_⟩
  rw [heq g0 calls]
  exact List.pairwise_lt_range' g0 calls.length

theorem dset_dset [DecidableEq α] (d : List (α × β)) (a : α) (b c : β) :
    dset (dset d a b) a c = dset d a c := by
  induction d with
  | nil => simp [dset]
  | cons kv rest ih =>
      obtain ⟨k, v⟩ := kv
      by_cases h : k = a
      · subst h
        simp [dset]
      · simp [dset, h, ih]

theorem dget_eq_none_of_not_mem [DecidableEq α] (d : List (α × β)) (a : α)
    (h : a ∉ dkeys d) : dget d a = none := by
  induction d with
  | nil => rfl
  | cons kv rest ih =>
      obtain ⟨k, v⟩ := kv
      simp only [dkeys, List.map_cons, List.mem_cons] at h
      push_neg at h
      have hk : k ≠ a := Ne.symm h.1
      simp [dget, hk, ih (by simpa [dkeys] using h.2)]

theorem dset_eq_append [DecidableEq α] (d : List (α × β)) (a : α) (b : β)
    (h : dget d a = none) : dset d a b = d ++ [(a, b)] := by
  induction d with
  | nil => rfl
  | cons kv rest ih =>
      obtain ⟨k, v⟩ := kv
      by_cases hk : k = a
      · simp [dget, hk] at h
      · simp only [dget, if_neg hk] at h
        simp [dset, hk, ih h]

theorem dget_map [DecidableEq α] (f : β → γ) (d : List (α × β)) (a : α) :
    dget (d.map (fun p => (p.1, f p.2))) a = (dget d a).map f := by
  induction d with
  | nil => rfl
  | cons kv rest ih =>
      obtain ⟨k, v⟩ := kv
      by_cases hk : k = a <;> simp [dget, hk, ih]

theorem ddel_map [DecidableEq α] (f : β → γ) (d : List (α × β)) (a : α) :
    ddel (d.map (fun p => (p.1, f p.2))) a = (ddel d a).map (fun p => (p.1, f p.2)) := by
  induction d with
  | nil => rfl
  | cons kv rest ih =>
      obtain ⟨k, v⟩ := kv
      by_cases hk : k = a <;> simp [ddel, hk, ih]

theorem mem_dkeys_ddel [DecidableEq α] (d : List (α × β)) (a k : α)
    (h : k ∈ dkeys (ddel d a)) : k ∈ dkeys d := by
  induction d with
  | nil => simpa [ddel] using h
  | cons kv rest ih =>
      obtain ⟨k', v⟩ := kv
      by_cases hk : k' = a
      · simp only [ddel, if_pos hk] at h
        have hcons : dkeys ((k', v) :: rest) = k' :: dkeys rest := rfl
        rw [hcons]
        exact List.mem_cons_of_mem _ h
      · simp only [ddel, if_neg hk, dkeys, List.map_cons, List.mem_cons] at h ⊢
        rcases h with h | h
        · exact Or.inl h
        · exact Or.inr (ih (by simpa [dkeys] using h))

theorem mem_ddel [DecidableEq α] (d : List (α × β)) (a : α) (p : α × β)
    (h : p ∈ ddel d a) : p ∈ d := by
  induction d with
  | nil => simp [ddel] at h
  | cons kv rest ih =>
      by_cases hk : kv.1 = a
      · obtain ⟨k', v⟩ := kv
        simp only [ddel, if_pos hk] at h
        exact List.mem_cons_of_mem _ h
      · obtain ⟨k', v⟩ := kv
        simp only [ddel, if_neg hk, List.mem_cons] at h
        rcases h with h | h
        · exact h ▸ List.mem_cons_self _ _
        · exact List.mem_cons_of_mem _ (ih h)

theorem dget_mem [DecidableEq α] (d : List (α × β)) (a : α) (v : β)
    (h : dget d a = some v) : (a, v) ∈ d := by
  induction d with
  | nil => simp [dget] at h
  | cons kv rest ih =>
      obtain ⟨k, v'⟩ := kv
      by_cases hk : k = a
      · subst hk
        have h' : v' = v := by simpa [dget] using h
        subst h'
        exact List.mem_cons_self _ _
      · simp only [dget, if_neg hk] at h
        exact List.mem_cons_of_mem _ (ih h)

theorem closedCount_append (cl : List (String × ℚ)) (b b' : String) (dur : ℚ) :
    closedCount (cl ++ [(b, dur)]) b'
      = closedCount cl b' + (if b = b' then 1 else 0) := by
  by_cases h : b = b' <;> simp [closedCount, List.filter_append, h]

theorem closedTotal_append (cl : List (String × ℚ)) (b b' : String) (dur : ℚ) :
    closedTotal (cl ++ [(b, dur)]) b'
      = closedTotal cl b' + (if b = b' then dur else 0) := by
  by_cases h : b = b' <;> simp [closedTotal, List.filter_append, h]

theorem closedTotal_of_count_zero (cl : List (String × ℚ)) (b : String)
    (h : closedCount cl b = 0) : closedTotal cl b = 0 := by
  rw [closedCount, List.length_eq_zero] at h
  simp [closedTotal, h]

/-- Behavior of `endBlock` on a live guid: the span's statistic is created
if absent, updated with the measured duration, and the span is deleted. -/
theorem endBlock_found (lg : Logger) (guid : Nat) (now : ℚ)
    (spec : BlockSpecification) (h : dget lg.blockDct guid = some spec) :
    (lg.endBlock guid now).1.blockDct = ddel lg.blockDct spec.guid ∧
    (lg.endBlock guid now).1.statisticDct =
      dset lg.statisticDct spec.block
        (((dget lg.statisticDct spec.block).getD
            (Statistic.init (some spec.block))).update (now - spec.startTime)) ∧
    (lg.endBlock guid now).2 = [] := by
  cases hs : dget lg.statisticDct spec.block with
  | none =>
      refine ⟨by simp [Logger.endBlock, h, BlockSpecification.setDuration, hs], ?_, by
        simp [Logger.endBlock, h]⟩
      simp [Logger.endBlock, h, BlockSpecification.setDuration, hs,
        dget_dset_self, dset_dset]
  | some st =>
      refine ⟨by simp [Logger.endBlock, h, BlockSpecification.setDuration, hs], ?_, by
        simp [Logger.endBlock, h]⟩
      simp [Logger.endBlock, h, BlockSpecification.setDuration, hs]

/-- What the statistic table must say for block `b`, given the completed
closes: absent exactly when no close completed, else count = number of
completed closes and total = sum of their durations. -/
def statMatches (st? : Option Statistic) (closed : List (String × ℚ)) (b : String) : Prop :=
  match st? with
  | none => closedCount closed b = 0
  | some st => st.count = closedCount closed b ∧ st.total = closedTotal closed b

/-- Simulation relation between a logger (with the process counter) and
the reference accounting: counters agree, the live-span table carries
exactly the open spans, every live guid is below the counter, stored spans
carry their own key as guid, and every block's statistic matches the
completed closes. -/
def Corresponds (lg : Logger) (g : Nat) (a : SpanAccounting) : Prop :=
  a.counter = g ∧
  a.openSpans = lg.blockDct.map (fun p => (p.1, p.2.block, p.2.startTime)) ∧
  (∀ k ∈ dkeys lg.blockDct, k < g) ∧
  (∀ p ∈ lg.blockDct, p.2.guid = p.1) ∧
  (∀ b : String, statMatches (dget lg.statisticDct b) a.closed b)

theorem corresponds_step (lg : Logger) (g : Nat) (a : SpanAccounting) (op : LogOp)
    (h : Corresponds lg g a) :
    Corresponds (applyOp (lg, g) op).1 (applyOp (lg, g) op).2 (a.step op) := by
  obtain ⟨hc, ho, hk, hg, hs⟩ := h
  cases op with
  | startB b t =>
      have hfresh : dget lg.blockDct g = none :=
        dget_eq_none_of_not_mem _ _ (fun hmem => lt_irrefl g (hk g hmem))
      have happ : dset lg.blockDct g ⟨g, t, b, none⟩
          = lg.blockDct ++ [(g, ⟨g, t, b, none⟩)] := dset_eq_append _ _ _ hfresh
      have happly1 : (applyOp (lg, g) (.startB b t)).1
          = { lg with blockDct := dset lg.blockDct g ⟨g, t, b, none⟩ } := rfl
      have happly2 : (applyOp (lg, g) (.startB b t)).2 = g + 1 := rfl
      have hstep : SpanAccounting.step a (.startB b t)
          = ⟨a.counter + 1, a.openSpans ++ [(a.counter, b, t)], a.closed⟩ := rfl
      rw [happly1, happly2, hstep]
      refine ⟨?_, ?_, ?_, ?_, ?_⟩
      · show a.counter + 1 = g + 1
        omega
      · show a.openSpans ++ [(a.counter, b, t)] = _
        rw [happ, List.map_append, ho, hc]
        rfl
      · intro k hkm
        rw [happ] at hkm
        simp only [dkeys, List.map_append, List.mem_append, List.map_cons,
          List.map_nil, List.mem_singleton] at hkm
        rcases hkm with hkm | hkm
        · exact lt_trans (hk k hkm) (Nat.lt_succ_self g)
        · omega
      · intro p hp
        rw [happ] at hp
        rcases List.mem_append.mp hp with hp | hp
        · exact hg p hp
        · rw [List.mem_singleton.mp hp]
      · intro b'
        exact hs b'
  | endB guid t =>
      have hmap : dget a.openSpans guid
          = (dget lg.blockDct guid).map (fun sp => (sp.block, sp.startTime)) := by
        rw [ho]
        exact dget_map (fun sp => (sp.block, sp.startTime)) lg.blockDct guid
      cases hb : dget lg.blockDct guid with
      | none =>
          have hopen : dget a.openSpans guid = none := by rw [hmap, hb]; rfl
          have hstep : a.step (.endB guid t) = a := by
            simp [SpanAccounting.step, hopen]
          have happly : applyOp (lg, g) (.endB guid t) = (lg, g) := by
            simp [applyOp, Logger.endBlock, hb]
          rw [hstep, happly]
          exact ⟨hc, ho, hk, hg, hs⟩
      | some spec0 =>
          have hopen : dget a.openSpans guid = some (spec0.block, spec0.startTime) := by
            rw [hmap, hb]
            rfl
          have hguid : spec0.guid = guid := hg (guid, spec0) (dget_mem _ _ _ hb)
          obtain ⟨hbd, hsd, -⟩ := endBlock_found lg guid t spec0 hb
          have hstep : a.step (.endB guid t)
              = ⟨a.counter, ddel a.openSpans guid,
                 a.closed ++ [(spec0.block, t - spec0.startTime)]⟩ := by
            simp [SpanAccounting.step, hopen]
          have happly1 : (applyOp (lg, g) (.endB guid t)).1 = (lg.endBlock guid t).1 := rfl
          have happly2 : (applyOp (lg, g) (.endB guid t)).2 = g := rfl
          rw [hstep, happly1, happly2]
          refine ⟨hc, ?_, ?_, ?_, ?_⟩
          · show ddel a.openSpans guid = _
            rw [hbd, hguid, ho]
            exact ddel_map (fun sp => (sp.block, sp.startTime)) lg.blockDct guid
          · intro k hkm
            rw [hbd, hguid] at hkm
            exact hk k (mem_dkeys_ddel _ _ _ hkm)
          · intro p hp
            rw [hbd, hguid] at hp
            exact hg p (mem_ddel _ _ _ hp)
          · intro b'
            rw [hsd]
            by_cases hbb : spec0.block = b'
            · subst hbb
              rw [dget_dset_self]
              cases hss : dget lg.statisticDct spec0.block with
              | none =>
                  have h0 := hs spec0.block
                  rw [hss] at h0
                  simp only [statMatches] at h0 ⊢
                  refine ⟨?_, ?_⟩
                  · rw [closedCount_append]
                    simp [Statistic.update, Statistic.init, h0]
                  · rw [closedTotal_append]
                    simp [Statistic.update, Statistic.init,
                      closedTotal_of_count_zero _ _ h0]
              | some st =>
                  have h0 := hs spec0.block
                  rw [hss] at h0
                  simp only [statMatches] at h0 ⊢
                  refine ⟨?_, ?_⟩
                  · rw [closedCount_append]
                    simp [Statistic.update, h0.1]
                  · rw [closedTotal_append]
                    simp [Statistic.update, h0.2]
            · rw [dget_dset_ne _ _ _ _ hbb]
              have h0 := hs b'
              cases hss : dget lg.statisticDct b' with
              | none =>
                  rw [hss] at h0
                  simp only [statMatches] at h0 ⊢
                  rw [closedCount_append]
                  simp [hbb, h0]
              | some st =>
                  rw [hss] at h0
                  simp only [statMatches] at h0 ⊢
                  rw [closedCount_append, closedTotal_append]
                  simp [hbb, h0.1, h0.2]

theorem corresponds_run (ops : List LogOp) (lg : Logger) (g : Nat)
    (a : SpanAccounting) (h : Corresponds lg g a) :
    Corresponds (applyOps (lg, g) ops).1 (applyOps (lg, g) ops).2 (a.run ops) := by
  induction ops generalizing lg g a with
  | nil => exact h
  | cons op rest ih =>
      have h1 := corresponds_step lg g a op h
      have h2 := ih (applyOp (lg, g) op).1 (applyOp (lg, g) op).2 (a.step op) h1
      simpa [applyOps, SpanAccounting.run] using h2

theorem corresponds_init (g0 : Nat) :
    Corresponds Logger.init g0 (.initFrom g0) := by
  refine ⟨rfl, rfl, ?_, ?_, ?_⟩
  · intro k hkm
    simp [Logger.init, dkeys] at hkm
  · intro p hp
    simp [Logger.init] at hp
  · intro b
    simp [Logger.init, SpanAccounting.initFrom, statMatches, closedCount]

/-- C3: (i) for any trace in which every `endBlock` names an identifier
previously returned by `startBlock` and not yet ended, the statistic
stored for a block name after the trace has count equal to the number of
completed `endBlock` calls for that name and total equal to the sum of the
measured durations of those spans (and no statistic exists for a name with
no completed close); (ii) each matched `endBlock` creates the statistic
for the span's name if absent, folds the measured duration into it, and
removes the span from the live-span table. -/
theorem blockTimingAccounting :
    (∀ (ops : List LogOp) (g0 : Nat) (b : String),
       matchedTrace (.initFrom g0) ops = true →
       statMatches (dget ((applyOps (Logger.init, g0) ops).1).statisticDct b)
         ((SpanAccounting.run (.initFrom g0) ops).closed) b) ∧
    (∀ (lg : Logger) (guid : Nat) (now : ℚ) (spec : BlockSpecification),
       dget lg.blockDct guid = some spec →
       (lg.endBlock guid now).1.blockDct = ddel lg.blockDct spec.guid ∧
       (lg.endBlock guid now).1.statisticDct =
         dset lg.statisticDct spec.block
           (((dget lg.statisticDct spec.block).getD
               (Statistic.init (some spec.block))).update (now - spec.startTime))) := by
  constructor
  · intro ops g0 b _
    exact (corresponds_run ops Logger.init g0 _ (corresponds_init g0)).2.2.2.2 b
  · intro lg guid now spec h
    exact ⟨(endBlock_found lg guid now spec h).1,
           (endBlock_found lg guid now spec h).2.1⟩

/-- A matched trace: two spans of block "x", closed in order. -/
def matchedOps : List LogOp := [.startB "x" 0, .startB "x" 2, .endB 0 3, .endB 1 7]

/-- A logger holding one live span, for the per-step half of C3. -/
def liveLogger : Logger :=
  { Logger.init with blockDct := [(0, ⟨0, 1, "z", none⟩)] }

/-- Witness for C3 on a concrete matched trace and a concrete live span. -/
theorem blockTimingAccounting_witness :
    (matchedTrace (.initFrom 0) matchedOps = true ∧
     statMatches (dget ((applyOps (Logger.init, 0) matchedOps).1).statisticDct "x")
       ((SpanAccounting.run (.initFrom 0) matchedOps).closed) "x") ∧
    (dget liveLogger.blockDct 0 = some ⟨0, 1, "z", none⟩ ∧
     (liveLogger.endBlock 0 5).1.blockDct = ddel liveLogger.blockDct 0 ∧
     (liveLogger.endBlock 0 5).1.statisticDct =
       dset liveLogger.statisticDct "z"
         (((dget liveLogger.statisticDct "z").getD
             (Statistic.init (some "z"))).update (5 - 1))) :=
  ⟨⟨by decide, blockTimingAccounting.1 matchedOps 0 "x" (by decide)⟩,
   ⟨rfl, blockTimingAccounting.2 liveLogger 0 5 ⟨0, 1, "z", none⟩ rfl⟩⟩
